import Mathlib

/-!
Verification of the bytom `accesstoken` credential store
(`CredentialStore.Create` / `Check` / `List` / `Delete`).

The store is an injected key-value database (`dbm.DB`); we model it as an
association list whose list order is the store's iteration order.  Keys are
the JSON encodings of identifiers, values are the decoded `Token` records
(the JSON marshal/unmarshal round-trip on a `Token` struct is the identity,
so values are kept structured).  Bytes are `Nat`s below 256.  The SHA3-256
hash (`sha3pool.Sum256`) is an external collaborator and is taken as an
arbitrary function parameter `hash`; the Go call writes its output into a
fixed 32-byte array, which the model reflects by framing the output with
`frame32`.  The random source (`crypto/rand.Read` filling a zeroed 32-byte
buffer) is modelled by the produced bytes `randBytes` plus a flag `randErr`
for a non-nil error of its own.
-/

namespace accesstoken

/-- Token byte width, `tokenSize = 32` in the source. -/
def tokenSize : Nat := 32

/-- Characters accepted by Go's regexp class `[\w-]`, i.e. `[A-Za-z0-9_-]`. -/
def isWordChar (c : Char) : Bool :=
  (48 ≤ c.toNat && c.toNat ≤ 57) ||
  (65 ≤ c.toNat && c.toNat ≤ 90) ||
  (97 ≤ c.toNat && c.toNat ≤ 122) ||
  c = '_' || c = '-'

/-- Model of `validIDRegexp.MatchString` for the anchored pattern
`^[\w-]+$`: at least one character and every character in `[A-Za-z0-9_-]`. -/
def validID (id : String) : Bool :=
  !id.data.isEmpty && id.data.all isWordChar

/-- Model of `json.Marshal` on a Go identifier string.  Identifiers that
pass `validID` contain only characters from `[A-Za-z0-9_-]`, none of which
is escaped by the JSON encoder, so the encoding is just the quoted string.
All call sites marshal the id only after `validID` has accepted it. -/
def jsonKey (id : String) : String := "\"" ++ id ++ "\""

/-- Lower-case hexadecimal digit, as printed by Go's `%x` verb. -/
def hexDigit (n : Nat) : Char :=
  match n with
  | 0 => '0' | 1 => '1' | 2 => '2' | 3 => '3' | 4 => '4'
  | 5 => '5' | 6 => '6' | 7 => '7' | 8 => '8' | 9 => '9'
  | 10 => 'a' | 11 => 'b' | 12 => 'c' | 13 => 'd' | 14 => 'e'
  | _ => 'f'

/-- Model of `fmt.Sprintf("%x", bs)` on a byte slice: two lower-case hex
digits per byte, most significant nibble first. -/
def hexBytes : List Nat → List Char
  | [] => []
  | b :: bs => hexDigit (b / 16) :: hexDigit (b % 16) :: hexBytes bs

/-- Numeric value of a lower-case hexadecimal digit character. -/
def hexVal (c : Char) : Nat :=
  if 97 ≤ c.toNat then c.toNat - 87 else c.toNat - 48

/-- Hex-decoding of a character list back into bytes, pairing consecutive
digits; inverse of `hexBytes` on well-formed input. -/
def hexDecode : List Char → List Nat
  | c1 :: c2 :: rest => (16 * hexVal c1 + hexVal c2) :: hexDecode rest
  | _ => []

/-- Model of `var buf [tokenSize]byte; copy(buf[:], s)`: the source bytes
are copied into a zero-initialised 32-byte buffer, so the result is `s`
truncated to 32 bytes and zero-padded up to 32 bytes. -/
def frame32 (s : List Nat) : List Nat :=
  s.take tokenSize ++ List.replicate (tokenSize - s.length) 0

/-- Model of `fmt.Sprintf("%s:%x", id, bs)`. -/
def tokenString (id : String) (bs : List Nat) : String :=
  String.mk (id.data ++ ':' :: hexBytes bs)

/-- The persisted token record (`Token` struct in the source).  The stored
value is its JSON marshaling; since unmarshal inverts marshal on this
struct we keep the structured form. -/
structure Token where
  id : String
  token : String
  type : String
  created : Nat
deriving DecidableEq, Repr

/-- Error kinds of the credential store: `ErrBadID`, `ErrDuplicateID`,
`ErrBadType` (declared but never raised), `ErrNoMatchID`, and `randRead`
standing for a non-nil error propagated from `rand.Read`. -/
inductive Err where
  | badID
  | duplicateID
  | badType
  | noMatchID
  | randRead
deriving DecidableEq, Repr

/-- The injected key-value store, modelled as an association list; the
list order is the store's iteration order. -/
abbrev DB := List (String × Token)

/-- Point lookup, `cs.DB.Get(k)`. -/
def dbGet (db : DB) (k : String) : Option Token :=
  match db with
  | [] => none
  | (k', v) :: rest => if k' = k then some v else dbGet rest k

/-- Point write, `cs.DB.Set(k, v)`: replaces an existing binding in place,
appends a fresh one at the end of iteration order. -/
def dbSet (db : DB) (k : String) (v : Token) : DB :=
  match db with
  | [] => [(k, v)]
  | (k', v') :: rest => if k' = k then (k, v) :: rest else (k', v') :: dbSet rest k v

/-- Point delete, `cs.DB.Delete(k)`. -/
def dbDelete (db : DB) (k : String) : DB :=
  match db with
  | [] => []
  | (k', v') :: rest => if k' = k then dbDelete rest k else (k', v') :: dbDelete rest k

/-- Model of `CredentialStore.Create(ctx, id, typ)`.

Result is `(token pointer, error, store after the call)`, mirroring the Go
return `(*string, error)` plus the store state.  `randBytes` are the bytes
the random source wrote into the 32-byte secret buffer and `randErr` says
whether `rand.Read` returned a non-nil error; the Go guard
`if err != nil || v != tokenSize { return nil, err }` returns the random
source's own error, which is nil when `randErr` is false — in that case
Create returns a nil token AND a nil error. -/
def Create (hash : List Nat → List Nat) (db : DB) (id typ : String)
    (randBytes : List Nat) (randErr : Bool) (now : Nat) :
    Option String × Option Err × DB :=
  if validID id = false then
    (none, some Err.badID, db)
  else if (dbGet db (jsonKey id)).isSome then
    (none, some Err.duplicateID, db)
  else if randErr then
    (none, some Err.randRead, db)
  else if randBytes.length ≠ tokenSize then
    (none, none, db)
  else
    (some (tokenString id randBytes), none,
      dbSet db (jsonKey id)
        { id := id
          token := tokenString id (frame32 (hash randBytes))
          type := typ
          created := now })

/-- Model of `CredentialStore.Check(ctx, id, secret)`.

The supplied secret is copied into a zeroed 32-byte buffer (`frame32`),
hashed into a 32-byte buffer, rendered as `"<id>:<hex>"` and compared with
the stored `Token` field; a mismatch is the value `false` with a nil
error. -/
def Check (hash : List Nat → List Nat) (db : DB) (id : String)
    (secret : List Nat) : Bool × Option Err :=
  if validID id = false then
    (false, some Err.badID)
  else
    match dbGet db (jsonKey id) with
    | none => (false, some Err.noMatchID)
    | some token =>
        (decide (token.token = tokenString id (frame32 (hash (frame32 secret)))), none)

/-- Model of `CredentialStore.Delete(ctx, id)`: validate the id, then an
unconditional delete with no existence check. -/
def Delete (db : DB) (id : String) : Option Err × DB :=
  if validID id = false then
    (some Err.badID, db)
  else
    (none, dbDelete db (jsonKey id))

/-- Decimal digit character, as printed by `strconv.Itoa`. -/
def digitChar (n : Nat) : Char :=
  match n with
  | 0 => '0' | 1 => '1' | 2 => '2' | 3 => '3' | 4 => '4'
  | 5 => '5' | 6 => '6' | 7 => '7' | 8 => '8' | _ => '9'

/-- Decimal digits with explicit recursion fuel; the fuel never runs out
when it exceeds the number being rendered. -/
def natDigitsF : Nat → Nat → List Char
  | 0, _ => []
  | fuel + 1, n =>
    if n < 10 then [digitChar n]
    else natDigitsF fuel (n / 10) ++ [digitChar (n % 10)]

/-- Decimal digits of a natural number, most significant first. -/
def natDigits (n : Nat) : List Char := natDigitsF (n + 1) n

/-- Model of `strconv.Itoa` on a Go int. -/
def intToStr (i : Int) : String :=
  if i < 0 then String.mk ('-' :: natDigits i.natAbs)
  else String.mk (natDigits i.toNat)

/-- Whether a character is a decimal digit. -/
def isDigitChar (c : Char) : Bool := 48 ≤ c.toNat && c.toNat ≤ 57

/-- Numeric value of a decimal digit character. -/
def digitVal (c : Char) : Nat := c.toNat - 48

/-- Value of a list of decimal digit characters, most significant first. -/
def digitsToNat (ds : List Char) : Nat :=
  ds.foldl (fun a c => 10 * a + digitVal c) 0

/-- Parse an unsigned run of decimal digits; fails on empty input or any
non-digit character. -/
def parseDigits (ds : List Char) : Option Nat :=
  if ds.isEmpty then none
  else if ds.all isDigitChar then some (digitsToNat ds)
  else none

/-- Smallest value of Go's 64-bit `int`, `-2^63`. -/
def intMin : Int := -9223372036854775808

/-- Largest value of Go's 64-bit `int`, `2^63 - 1`. -/
def intMax : Int := 9223372036854775807

/-- Two's-complement wraparound of a 64-bit signed integer operation:
the result is reduced mod `2^64` into `[-2^63, 2^63)`, exactly as Go's
`int` addition overflows. -/
def wrap64 (z : Int) : Int :=
  (z + 9223372036854775808) % 18446744073709551616 - 9223372036854775808

/-- Model of `strconv.Atoi`: optional single leading sign, then at least
one decimal digit and nothing else, and an error (`ErrRange`) when the
value does not fit in a 64-bit `int` — `List` treats that error like any
other parse failure. -/
def parseAtoi (s : String) : Option Int :=
  (match s.data with
   | [] => none
   | c :: ds =>
     if c = '+' then (parseDigits ds).map (fun n => (n : Int))
     else if c = '-' then (parseDigits ds).map (fun n => -(n : Int))
     else (parseDigits (c :: ds)).map (fun n => (n : Int))).bind
    (fun z => if z < intMin ∨ intMax < z then none else some z)

/-- Errors of `CredentialStore.List`: the two ad-hoc errors
`"Invalid after"` and `"No access token"`. -/
inductive ListErr where
  | invalidAfter
  | noAccessToken
deriving DecidableEq, Repr

/-- Observable outcome of `CredentialStore.List`: a returned error, a Go
runtime panic (the slice expression `tokens[start:end]` panics unless
`0 ≤ start ≤ end ≤ len(tokens)`), or a normal return
`(items, nextCursor, isLastPage)` with a nil error. -/
inductive ListOutcome where
  | err (e : ListErr)
  | panic
  | ok (items : List Token) (next : String) (last : Bool)
deriving DecidableEq, Repr

/-- The `end` index computed by `List`:
`start, end := 0, len(tokens); if len(tokens) > zafter+limit { end = zafter + limit }`.
The sum `zafter + limit` is a Go `int` addition and therefore wraps at
`2^63`; both the comparison and the assignment see the wrapped value. -/
def listEnd (total zafter limit : Int) : Int :=
  if total > wrap64 (zafter + limit) then wrap64 (zafter + limit) else total

/-- Model of `CredentialStore.List(after, limit, defaultLimit)`.

`tokens` is the list of stored values in iteration order, so
`len(tokens) = db.length` and the returned items are drawn from
`db.map (fun p => p.2)`.  The final slice `tokens[start:end]` uses Go int
indices and panics at runtime when `0 ≤ start ≤ end ≤ len(tokens)` fails;
`start` is the parsed `after` offset, which `strconv.Atoi` happily parses
as a negative int, and `end` can drop below `start` when `limit` is
negative or when the 64-bit sum `zafter + limit` overflows and wraps. -/
def ListOp (db : DB) (after : String) (limit defaultLimit : Int) : ListOutcome :=
  match (if after = "" then some 0 else parseAtoi after) with
  | none => ListOutcome.err ListErr.invalidAfter
  | some zafter =>
    if db.length = 0 then
      ListOutcome.err ListErr.noAccessToken
    else if (db.length : Int) > zafter then
      if 0 ≤ zafter ∧ zafter ≤ listEnd (db.length : Int) zafter limit ∧
          listEnd (db.length : Int) zafter limit ≤ (db.length : Int) then
        ListOutcome.ok
          (((db.map (fun p => p.2)).drop zafter.toNat).take
            (listEnd (db.length : Int) zafter limit - zafter).toNat)
          (intToStr (listEnd (db.length : Int) zafter limit))
          (decide ((db.length : Int) = listEnd (db.length : Int) zafter limit) ||
            decide ((db.length : Int) < defaultLimit))
      else ListOutcome.panic
    else ListOutcome.err ListErr.invalidAfter

/-- Byte-valued hash instance used for concrete evaluations: reduce every
input byte mod 256 and frame to 32 bytes.  Stands in for SHA3-256, whose
only properties the theorems use are determinism and byte-valued output. -/
def hashW (s : List Nat) : List Nat := frame32 (s.map (fun b => b % 256))

/-- A hash function produces bytes: every output element is below 256. -/
def HashBytes (hash : List Nat → List Nat) : Prop :=
  ∀ x, ∀ b ∈ hash x, b < 256

/-- Concrete token record used in counterexample stores. -/
def tokA : Token := { id := "a", token := "a:00", type := "client", created := 0 }

/-- Second concrete token record used in counterexample stores. -/
def tokB : Token := { id := "b", token := "b:00", type := "client", created := 0 }

/-! ## Helper lemmas about the store, framing, hex and decimal encodings -/

/-- Looking up a key just written returns the written value. -/
theorem dbGet_dbSet_self (db : DB) (k : String) (v : Token) :
    dbGet (dbSet db k v) k = some v := by
  induction db with
  | nil => simp [dbGet, dbSet]
  | cons p rest ih =>
    obtain ⟨k', v'⟩ := p
    by_cases h : k' = k
    · simp [dbSet, h, dbGet]
    · simp [dbSet, h, dbGet, ih]

/-- Writing one key leaves every other key's binding unchanged. -/
theorem dbGet_dbSet_ne (db : DB) (k k' : String) (v : Token) (h : k' ≠ k) :
    dbGet (dbSet db k v) k' = dbGet db k' := by
  induction db with
  | nil => simp [dbGet, dbSet, Ne.symm h]
  | cons p rest ih =>
    obtain ⟨a, b⟩ := p
    by_cases ha : a = k
    · subst ha
      simp [dbSet, dbGet, Ne.symm h]
    · simp [dbSet, ha, dbGet, ih]

/-- Looking up a key just deleted returns nothing. -/
theorem dbGet_dbDelete_self (db : DB) (k : String) :
    dbGet (dbDelete db k) k = none := by
  induction db with
  | nil => simp [dbGet, dbDelete]
  | cons p rest ih =>
    obtain ⟨a, b⟩ := p
    by_cases ha : a = k
    · simp [dbDelete, ha, ih]
    · simp [dbDelete, ha, dbGet, ih]

/-- The framed buffer always has exactly 32 bytes. -/
theorem frame32_length (s : List Nat) : (frame32 s).length = tokenSize := by
  simp [frame32, tokenSize]
  omega

/-- Framing a buffer that already has exactly 32 bytes is the identity. -/
theorem frame32_of_length {s : List Nat} (h : s.length = tokenSize) :
    frame32 s = s := by
  simp [frame32, h, List.take_of_length_le (le_of_eq h)]

/-- Framing is idempotent. -/
theorem frame32_idem (s : List Nat) : frame32 (frame32 s) = frame32 s :=
  frame32_of_length (frame32_length s)

/-- Framing preserves byte-validity (the padding is zero). -/
theorem frame32_bytes {s : List Nat} (h : ∀ b ∈ s, b < 256) :
    ∀ b ∈ frame32 s, b < 256 := by
  intro b hb
  rcases List.mem_append.mp hb with h1 | h2
  · exact h b (List.mem_of_mem_take h1)
  · have := List.eq_of_mem_replicate h2
    omega

/-- Hex digits decode back to their value. -/
theorem hexVal_hexDigit (k : Nat) (h : k < 16) : hexVal (hexDigit k) = k := by
  interval_cases k <;> decide

/-- Hex decoding inverts hex encoding on byte lists. -/
theorem hexDecode_hexBytes : ∀ (l : List Nat), (∀ b ∈ l, b < 256) →
    hexDecode (hexBytes l) = l := by
  intro l
  induction l with
  | nil => intro _; rfl
  | cons b t ih =>
    intro h
    have hb : b < 256 := h b (by simp)
    have h1 : b / 16 < 16 := by omega
    have h2 : b % 16 < 16 := by omega
    simp only [hexBytes, hexDecode, hexVal_hexDigit _ h1, hexVal_hexDigit _ h2,
      List.cons.injEq]
    constructor
    · omega
    · exact ih (fun x hx => h x (by simp [hx]))

/-- Two distinct byte lists have distinct `"<id>:<hex>"` renderings. -/
theorem tokenString_ne {id : String} {h1 h2 : List Nat}
    (hv1 : ∀ b ∈ h1, b < 256) (hv2 : ∀ b ∈ h2, b < 256) (hne : h1 ≠ h2) :
    tokenString id h1 ≠ tokenString id h2 := by
  intro he
  apply hne
  have hd : id.data ++ ':' :: hexBytes h1 = id.data ++ ':' :: hexBytes h2 :=
    congrArg String.data he
  have h3 : hexBytes h1 = hexBytes h2 := by
    have := List.append_cancel_left hd
    simpa using this
  calc h1 = hexDecode (hexBytes h1) := (hexDecode_hexBytes _ hv1).symm
    _ = hexDecode (hexBytes h2) := by rw [h3]
    _ = h2 := hexDecode_hexBytes _ hv2

/-- Dropping the `"<id>:"` prefix of a rendered token string leaves the
hex-encoded byte payload. -/
theorem drop_tokenString (id : String) (bs : List Nat) :
    (tokenString id bs).data.drop (id.length + 1) = hexBytes bs := by
  show (id.data ++ ':' :: hexBytes bs).drop (id.length + 1) = hexBytes bs
  have he : id.data ++ ':' :: hexBytes bs = (id.data ++ [':']) ++ hexBytes bs := by
    simp
  rw [he]
  have hlen : id.length + 1 = (id.data ++ [':']).length := by
    show id.data.length + 1 = (id.data ++ [':']).length
    simp
  rw [hlen, List.drop_left]

/-- Decimal digit characters decode back to their value. -/
theorem digitVal_digitChar (k : Nat) (h : k < 10) : digitVal (digitChar k) = k := by
  interval_cases k <;> decide

/-- Decimal digit characters satisfy the digit predicate. -/
theorem isDigitChar_digitChar (k : Nat) (h : k < 10) :
    isDigitChar (digitChar k) = true := by
  interval_cases k <;> decide

/-- With enough fuel, a decimal rendering is never empty. -/
theorem natDigitsF_ne_nil : ∀ fuel n, n < fuel → natDigitsF fuel n ≠ [] := by
  intro fuel
  cases fuel with
  | zero => intro n h; omega
  | succ f =>
    intro n _
    simp only [natDigitsF]
    split
    · exact List.cons_ne_nil _ _
    · intro e
      exact List.cons_ne_nil _ _ (List.append_eq_nil.mp e).2

/-- A decimal rendering is never empty. -/
theorem natDigits_ne_nil (n : Nat) : natDigits n ≠ [] :=
  natDigitsF_ne_nil (n + 1) n (by omega)

/-- With enough fuel, every character of a decimal rendering is a digit. -/
theorem natDigitsF_all : ∀ fuel n, n < fuel →
    ∀ c ∈ natDigitsF fuel n, isDigitChar c = true := by
  intro fuel
  induction fuel with
  | zero => intro n h; omega
  | succ f ih =>
    intro n hn
    simp only [natDigitsF]
    split
    · next h =>
      intro c hc
      simp only [List.mem_singleton] at hc
      subst hc
      exact isDigitChar_digitChar n h
    · next h =>
      intro c hc
      rcases List.mem_append.mp hc with h1 | h2
      · exact ih (n / 10) (by omega) c h1
      · simp only [List.mem_singleton] at h2
        subst h2
        exact isDigitChar_digitChar (n % 10) (by omega)

/-- Every character of a decimal rendering is a digit. -/
theorem natDigits_all (n : Nat) : ∀ c ∈ natDigits n, isDigitChar c = true :=
  natDigitsF_all (n + 1) n (by omega)

/-- Peeling the last digit off a digit-string value. -/
theorem digitsToNat_append_single (ds : List Char) (c : Char) :
    digitsToNat (ds ++ [c]) = 10 * digitsToNat ds + digitVal c := by
  simp [digitsToNat, List.foldl_append]

/-- With enough fuel, the decimal rendering of `n` evaluates back to `n`. -/
theorem digitsToNat_natDigitsF : ∀ fuel n, n < fuel →
    digitsToNat (natDigitsF fuel n) = n := by
  intro fuel
  induction fuel with
  | zero => intro n h; omega
  | succ f ih =>
    intro n hn
    simp only [natDigitsF]
    split
    · next h =>
      simp [digitsToNat, digitVal_digitChar n h]
    · next h =>
      rw [digitsToNat_append_single, ih (n / 10) (by omega),
        digitVal_digitChar (n % 10) (by omega)]
      omega

/-- The decimal rendering of `n` evaluates back to `n`. -/
theorem digitsToNat_natDigits (n : Nat) : digitsToNat (natDigits n) = n :=
  digitsToNat_natDigitsF (n + 1) n (by omega)

/-- Wraparound is the identity on values representable in a 64-bit int. -/
theorem wrap64_eq_self {z : Int} (h1 : intMin ≤ z) (h2 : z ≤ intMax) :
    wrap64 z = z := by
  unfold wrap64
  unfold intMin at h1
  unfold intMax at h2
  omega

/-- Unsigned digit parsing inverts decimal rendering. -/
theorem parseDigits_natDigits (n : Nat) : parseDigits (natDigits n) = some n := by
  have h1 : (natDigits n).isEmpty = false := by
    cases h : natDigits n with
    | nil => exact absurd h (natDigits_ne_nil n)
    | cons a t => rfl
  have h2 : (natDigits n).all isDigitChar = true :=
    List.all_eq_true.mpr (natDigits_all n)
  simp [parseDigits, h1, h2, digitsToNat_natDigits]

/-- The modelled `Atoi` inverts the modelled `Itoa` on naturals that fit
in a 64-bit int. -/
theorem parseAtoi_natDigits (n : Nat) (hn : (n : Int) ≤ intMax) :
    parseAtoi (String.mk (natDigits n)) = some (n : Int) := by
  have hrange : ¬((n : Int) < intMin ∨ intMax < (n : Int)) := by
    unfold intMin intMax at *
    omega
  cases h : natDigits n with
  | nil => exact absurd h (natDigits_ne_nil n)
  | cons c ds =>
    have hc : isDigitChar c = true := natDigits_all n c (by rw [h]; exact List.mem_cons_self c ds)
    have hplus : c ≠ '+' := by
      intro e
      rw [e] at hc
      exact absurd hc (by decide)
    have hminus : c ≠ '-' := by
      intro e
      rw [e] at hc
      exact absurd hc (by decide)
    show parseAtoi (String.mk (c :: ds)) = some (n : Int)
    unfold parseAtoi
    simp only [if_neg hplus, if_neg hminus, ← h, parseDigits_natDigits n]
    show (if (n : Int) < intMin ∨ intMax < (n : Int) then none else some ((n : Nat) : Int)) =
      some (n : Int)
    rw [if_neg hrange]

/-- `Itoa` on a natural number renders its decimal digits. -/
theorem intToStr_ofNat (n : Nat) : intToStr (n : Int) = String.mk (natDigits n) := by
  unfold intToStr
  rw [if_neg (by omega : ¬((n : Int) < 0))]
  simp

/-- `Itoa` of a natural number is never the empty string. -/
theorem intToStr_ofNat_ne_empty (n : Nat) : intToStr (n : Int) ≠ "" := by
  rw [intToStr_ofNat]
  intro e
  exact natDigits_ne_nil n (congrArg String.data e)

/-- The concrete evaluation hash produces bytes. -/
theorem hashW_bytes : HashBytes hashW := by
  intro x b hb
  refine frame32_bytes ?_ b hb
  intro c hc
  rcases List.mem_map.mp hc with ⟨a, _, rfl⟩
  omega

/-- A successful `Create` reduces to its success tuple. -/
theorem create_success_eq (hash : List Nat → List Nat) (db : DB) (id typ : String)
    (secret : List Nat) (now : Nat)
    (hid : validID id = true)
    (hfresh : dbGet db (jsonKey id) = none)
    (hlen : secret.length = tokenSize) :
    Create hash db id typ secret false now =
      (some (tokenString id secret), none,
        dbSet db (jsonKey id)
          { id := id
            token := tokenString id (frame32 (hash secret))
            type := typ
            created := now }) := by
  simp [Create, hid, hfresh, hlen]

/-! ## Claim theorems -/

/-- C1: for every identifier accepted by the pattern and every type string,
`Create(id, t)` on a store with no record for `id`, followed immediately by
`Check(id, secret)` where `secret` is the 32 raw bytes hex-decoded from the
part of the returned issuance string after `"<id>:"`, returns
`(true, nil)`. -/
theorem create_then_check_roundtrip (hash : List Nat → List Nat) (db : DB)
    (id typ : String) (secret : List Nat) (now : Nat)
    (hid : validID id = true)
    (hfresh : dbGet db (jsonKey id) = none)
    (hlen : secret.length = tokenSize)
    (hbytes : ∀ b ∈ secret, b < 256) :
    ∃ iss db2,
      Create hash db id typ secret false now = (some iss, none, db2) ∧
      Check hash db2 id (hexDecode (iss.data.drop (id.length + 1))) = (true, none) := by
  refine ⟨tokenString id secret, _, create_success_eq hash db id typ secret now hid hfresh hlen, ?_⟩
  rw [drop_tokenString, hexDecode_hexBytes _ hbytes]
  simp [Check, hid, dbGet_dbSet_self, frame32_of_length hlen]

/-- Witness for C1 at a concrete store, identifier and secret. -/
theorem create_then_check_roundtrip_witness :
    ∃ iss db2,
      Create hashW [] "alice" "client" (List.replicate 32 7) false 0 = (some iss, none, db2) ∧
      Check hashW db2 "alice" (hexDecode (iss.data.drop ("alice".length + 1))) = (true, none) :=
  create_then_check_roundtrip hashW [] "alice" "client" (List.replicate 32 7) 0
    (by decide) rfl (by decide) (by decide)

/-- C2: after a valid `Create(id, ...)`, `Check(id, wrongSecret)` for any
32-byte secret whose hash differs from the stored one returns
`(false, nil)` — a structured `false` with a nil error, never an error
result. -/
theorem check_wrong_secret_false_nil (hash : List Nat → List Nat) (db : DB)
    (id typ : String) (secret wrong : List Nat) (now : Nat)
    (hhash : HashBytes hash)
    (hid : validID id = true)
    (hfresh : dbGet db (jsonKey id) = none)
    (hlen : secret.length = tokenSize)
    (hwlen : wrong.length = tokenSize)
    (hne : frame32 (hash wrong) ≠ frame32 (hash secret)) :
    Check hash (Create hash db id typ secret false now).2.2 id wrong = (false, none) := by
  rw [create_success_eq hash db id typ secret now hid hfresh hlen]
  have hne2 : tokenString id (frame32 (hash secret)) ≠ tokenString id (frame32 (hash wrong)) :=
    tokenString_ne (frame32_bytes (hhash secret)) (frame32_bytes (hhash wrong))
      (fun e => hne e.symm)
  simp [Check, hid, dbGet_dbSet_self, frame32_of_length hwlen, hne2]

/-- Witness for C2 at a concrete store, identifier and wrong secret. -/
theorem check_wrong_secret_false_nil_witness :
    Check hashW (Create hashW [] "alice" "client" (List.replicate 32 1) false 0).2.2 "alice"
      (List.replicate 32 2) = (false, none) :=
  check_wrong_secret_false_nil hashW [] "alice" "client" (List.replicate 32 1)
    (List.replicate 32 2) 0 hashW_bytes (by decide) rfl (by decide) (by decide) (by decide)

/-- C3: a second `Create` with the same identifier fails with the
DuplicateID error and leaves the store exactly as the first call left it,
so `Check` against the original secret still returns `(true, nil)`. -/
theorem create_duplicate_preserves_store (hash : List Nat → List Nat) (db : DB)
    (id typ typ2 : String) (secret secret2 : List Nat) (rErr2 : Bool) (now now2 : Nat)
    (hid : validID id = true)
    (hfresh : dbGet db (jsonKey id) = none)
    (hlen : secret.length = tokenSize) :
    Create hash (Create hash db id typ secret false now).2.2 id typ2 secret2 rErr2 now2 =
      (none, some Err.duplicateID, (Create hash db id typ secret false now).2.2) ∧
    Check hash (Create hash db id typ secret false now).2.2 id secret = (true, none) := by
  rw [create_success_eq hash db id typ secret now hid hfresh hlen]
  constructor
  · simp [Create, hid, dbGet_dbSet_self]
  · simp [Check, hid, dbGet_dbSet_self, frame32_of_length hlen]

/-- Witness for C3 at a concrete store, identifier and secrets. -/
theorem create_duplicate_preserves_store_witness :
    Create hashW (Create hashW [] "alice" "client" (List.replicate 32 1) false 0).2.2 "alice"
        "network" (List.replicate 32 2) false 1 =
      (none, some Err.duplicateID,
        (Create hashW [] "alice" "client" (List.replicate 32 1) false 0).2.2) ∧
    Check hashW (Create hashW [] "alice" "client" (List.replicate 32 1) false 0).2.2 "alice"
      (List.replicate 32 1) = (true, none) :=
  create_duplicate_preserves_store hashW [] "alice" "client" "network" (List.replicate 32 1)
    (List.replicate 32 2) false 0 1 (by decide) rfl (by decide)

/-- C5: at the failing input — a fresh valid id and a random source that
produces fewer than 32 bytes while reporting no error of its own
(`rand.Read` returns `v = 0, err = nil`) — `Create` returns a nil token
pointer AND a nil error, persisting nothing: the guard
`if err != nil || v != tokenSize { return nil, err }` returns the random
source's own nil error instead of a RandomSourceError, contradicting the
claim that an error result is returned. -/
theorem create_underfill_returns_no_error :
    Create hashW [] "a" "client" [] false 0 = (none, none, []) := by
  decide

/-- C7: for every valid id, `Delete(id)` returns a nil error whether or not
a record exists (no existence check, NoMatchID never raised), and a
subsequent `Create(id, t)` succeeds normally. -/
theorem delete_idempotent_then_create (hash : List Nat → List Nat) (db : DB)
    (id typ : String) (secret : List Nat) (now : Nat)
    (hid : validID id = true)
    (hlen : secret.length = tokenSize) :
    (Delete db id).1 = none ∧
    Create hash (Delete db id).2 id typ secret false now =
      (some (tokenString id secret), none,
        dbSet (Delete db id).2 (jsonKey id)
          { id := id
            token := tokenString id (frame32 (hash secret))
            type := typ
            created := now }) := by
  have hd : Delete db id = (none, dbDelete db (jsonKey id)) := by
    simp [Delete, hid]
  rw [hd]
  exact ⟨rfl, create_success_eq hash _ id typ secret now hid (dbGet_dbDelete_self db _) hlen⟩

/-- Witness for C7 at a store that does contain a record for the id. -/
theorem delete_idempotent_then_create_witness :
    (Delete [(jsonKey "bob", tokB)] "bob").1 = none ∧
    Create hashW (Delete [(jsonKey "bob", tokB)] "bob").2 "bob" "client"
        (List.replicate 32 5) false 3 =
      (some (tokenString "bob" (List.replicate 32 5)), none,
        dbSet (Delete [(jsonKey "bob", tokB)] "bob").2 (jsonKey "bob")
          { id := "bob"
            token := tokenString "bob" (frame32 (hashW (List.replicate 32 5)))
            type := "client"
            created := 3 }) :=
  delete_idempotent_then_create hashW [(jsonKey "bob", tokB)] "bob" "client"
    (List.replicate 32 5) 3 (by decide) (by decide)

/-- C9: `Check` is total over secrets of every length — the supplied bytes
are framed into a fixed 32-byte buffer before hashing (zero padding for
short input, truncation to the first 32 bytes for long input), so
`Check(id, s)` equals `Check(id, frame32(s))` for any secret `s`. -/
theorem check_total_fixed_width (hash : List Nat → List Nat) (db : DB) (id : String)
    (secret : List Nat) :
    Check hash db id secret =
      Check hash db id (secret.take tokenSize ++ List.replicate (tokenSize - secret.length) 0) := by
  show Check hash db id secret = Check hash db id (frame32 secret)
  unfold Check
  rw [frame32_idem]

/-- C10: a successful `Create(id, typ)` modifies only the store entry keyed
by the encoding of `id`; every other key's presence and value are
unchanged. -/
theorem create_frame_other_keys (hash : List Nat → List Nat) (db : DB)
    (id typ : String) (secret : List Nat) (now : Nat) (k : String)
    (hid : validID id = true)
    (hfresh : dbGet db (jsonKey id) = none)
    (hlen : secret.length = tokenSize)
    (hk : k ≠ jsonKey id) :
    dbGet (Create hash db id typ secret false now).2.2 k = dbGet db k := by
  rw [create_success_eq hash db id typ secret now hid hfresh hlen]
  exact dbGet_dbSet_ne db (jsonKey id) k _ hk

/-- Witness for C10: creating `"a"` leaves the binding of the other key
`"b"` untouched. -/
theorem create_frame_other_keys_witness :
    dbGet (Create hashW [(jsonKey "b", tokB)] "a" "client"
      (List.replicate 32 3) false 0).2.2 (jsonKey "b") =
    dbGet [(jsonKey "b", tokB)] (jsonKey "b") :=
  create_frame_other_keys hashW [(jsonKey "b", tokB)] "a" "client"
    (List.replicate 32 3) 0 (jsonKey "b") (by decide) rfl (by decide) (by decide)

/-- C8: `Create`, `Check` and `Delete` fail with the InvalidID error
exactly when the id does not match `^[A-Za-z0-9_-]+$` (at least one
character, each an ASCII letter, digit, underscore or hyphen); in the
invalid case the result is the InvalidID error with no state change, and
in the valid case none of the three operations ever returns InvalidID. -/
theorem invalid_id_exactly (hash : List Nat → List Nat) (db : DB) (id typ : String)
    (secret : List Nat) (rErr : Bool) (now : Nat) :
    (validID id = false →
      Create hash db id typ secret rErr now = (none, some Err.badID, db) ∧
      Check hash db id secret = (false, some Err.badID) ∧
      Delete db id = (some Err.badID, db)) ∧
    ((Create hash db id typ secret rErr now).2.1 = some Err.badID → validID id = false) ∧
    ((Check hash db id secret).2 = some Err.badID → validID id = false) ∧
    ((Delete db id).1 = some Err.badID → validID id = false) := by
  cases hv : validID id with
  | false =>
    exact ⟨fun _ => ⟨by simp [Create, hv], by simp [Check, hv], by simp [Delete, hv]⟩,
      fun _ => rfl, fun _ => rfl, fun _ => rfl⟩
  | true =>
    refine ⟨fun hf => by simp [hv] at hf, ?_, ?_, ?_⟩
    · intro hc
      simp only [Create, hv] at hc
      split at hc
      · simp_all
      · split at hc
        · simp_all
        · split at hc
          · simp_all
          · split at hc
            · simp_all
            · simp_all
    · intro hc
      simp only [Check, hv] at hc
      split at hc
      · simp_all
      · split at hc
        · simp_all
        · simp_all
    · intro hc
      simp [Delete, hv] at hc

/-- Witness for C8: both `Create("bad id!", t)` and `Create("", t)` fail
with the InvalidID error and leave the store unchanged. -/
theorem invalid_id_exactly_witness :
    Create hashW [] "bad id!" "t" [] false 0 = (none, some Err.badID, []) ∧
    Create hashW [] "" "t" [] false 0 = (none, some Err.badID, []) :=
  ⟨((invalid_id_exactly hashW [] "bad id!" "t" [] false 0).1 (by decide)).1,
   ((invalid_id_exactly hashW [] "" "t" [] false 0).1 (by decide)).1⟩

/-- C4 counterexample: with one stored record, `List("-1", 1, 100)` — where
`"-1"` is non-empty and does not parse as a NON-NEGATIVE integer, so the
claim demands the InvalidAfter error — and `List("0", -1, 100)` — offset 0
is in range, so the claim demands a nil error for ANY limit — both hit the
Go slice expression `tokens[start:end]` with out-of-range bounds and panic
instead of returning. -/
theorem listOp_no_error_on_negative_inputs :
    ListOp [(jsonKey "a", tokA)] "-1" 1 100 = ListOutcome.panic ∧
    ListOp [(jsonKey "a", tokA)] "0" (-1) 100 = ListOutcome.panic :=
  ⟨by decide, by decide⟩

/-- C4 (amended): `List` returns an error exactly when the non-empty
`after` fails 64-bit integer parsing, values outside the int range
included (InvalidAfter), or the store is empty (the store-empty error,
checked after parsing), or the parsed offset is ≥ the record total
(InvalidAfter) — except that a parsed offset that is negative (with a
non-empty store), or an in-range offset whose wrapped 64-bit sum
`offset + limit` falls below it (negative limit, or overflow of the
addition), makes `List` panic on the slice bounds instead of returning;
for every other input (0 ≤ offset < total and offset ≤ the wrapped
`offset + limit`) `List` returns a nil error. -/
theorem listOp_error_characterization (db : DB) (after : String) (limit defaultLimit : Int) :
    ((if after = "" then some 0 else parseAtoi after) = none →
      ListOp db after limit defaultLimit = ListOutcome.err ListErr.invalidAfter) ∧
    (∀ z : Int, (if after = "" then some 0 else parseAtoi after) = some z →
      (db.length = 0 →
        ListOp db after limit defaultLimit = ListOutcome.err ListErr.noAccessToken) ∧
      (db.length ≠ 0 → (db.length : Int) ≤ z →
        ListOp db after limit defaultLimit = ListOutcome.err ListErr.invalidAfter) ∧
      (db.length ≠ 0 → z < (db.length : Int) → (z < 0 ∨ wrap64 (z + limit) < z) →
        ListOp db after limit defaultLimit = ListOutcome.panic) ∧
      (db.length ≠ 0 → 0 ≤ z → z < (db.length : Int) → z ≤ wrap64 (z + limit) →
        ∃ items next last,
          ListOp db after limit defaultLimit = ListOutcome.ok items next last)) := by
  constructor
  · intro hp
    simp [ListOp, hp]
  · intro z hp
    refine ⟨?_, ?_, ?_, ?_⟩
    · intro h0
      simp [ListOp, hp, h0]
    · intro h0 h1
      have h1' : ¬((db.length : Int) > z) := by omega
      simp [ListOp, hp, h0, h1']
    · intro h0 h1 h2
      have hg : ¬(0 ≤ z ∧ z ≤ listEnd (db.length : Int) z limit ∧
          listEnd (db.length : Int) z limit ≤ (db.length : Int)) := by
        rcases h2 with hz | hw
        · rintro ⟨ha, -, -⟩
          omega
        · rintro ⟨ha, hb, -⟩
          unfold listEnd at hb
          split at hb <;> omega
      simp [ListOp, hp, h0, h1, hg]
    · intro h0 hz h1 hwr
      have hg : 0 ≤ z ∧ z ≤ listEnd (db.length : Int) z limit ∧
          listEnd (db.length : Int) z limit ≤ (db.length : Int) := by
        refine ⟨hz, ?_, ?_⟩
        · unfold listEnd
          split <;> omega
        · unfold listEnd
          split <;> omega
      have hok : ListOp db after limit defaultLimit = ListOutcome.ok
          (((db.map (fun p => p.2)).drop z.toNat).take
            (listEnd (db.length : Int) z limit - z).toNat)
          (intToStr (listEnd (db.length : Int) z limit))
          (decide ((db.length : Int) = listEnd (db.length : Int) z limit) ||
            decide ((db.length : Int) < defaultLimit)) := by
        simp [ListOp, hp, h0, h1, hg]
      exact ⟨_, _, _, hok⟩

/-- Witness for C4 at a concrete unparsable cursor. -/
theorem listOp_error_characterization_witness :
    (if "abc" = "" then some 0 else parseAtoi "abc") = (none : Option Int) ∧
    ListOp [(jsonKey "a", tokA)] "abc" 1 100 = ListOutcome.err ListErr.invalidAfter :=
  ⟨by decide, (listOp_error_characterization [(jsonKey "a", tokA)] "abc" 1 100).1 (by decide)⟩

/-- C6 counterexample: a two-record store and offset 1 (so
0 ≤ offset < total).  At limit -1 the claim predicts the empty slice
`[1, 0)` with nextCursor `"0"` and isLastPage true (total 2 <
defaultLimit 5), and at limit `2^63 - 1` it predicts
`end = min(2, 1 + limit) = 2`, i.e. the slice `[tokB]` with nextCursor
`"2"` and isLastPage true; the code instead panics on the slice
expression both times — at limit -1 because `end = 0 < start`, and at
limit `2^63 - 1` because the Go int sum `1 + limit` wraps to `-2^63`. -/
theorem listOp_pagination_unrestricted_limit_false :
    ListOp [(jsonKey "a", tokA), (jsonKey "b", tokB)] (intToStr ((1 : Nat) : Int)) (-1) 5 ≠
      ListOutcome.ok [] (intToStr ((0 : Nat) : Int)) true ∧
    ListOp [(jsonKey "a", tokA), (jsonKey "b", tokB)] (intToStr ((1 : Nat) : Int)) (-1) 5 =
      ListOutcome.panic ∧
    ListOp [(jsonKey "a", tokA), (jsonKey "b", tokB)] (intToStr ((1 : Nat) : Int))
        9223372036854775807 5 ≠
      ListOutcome.ok [tokB] (intToStr ((2 : Nat) : Int)) true ∧
    ListOp [(jsonKey "a", tokA), (jsonKey "b", tokB)] (intToStr ((1 : Nat) : Int))
        9223372036854775807 5 =
      ListOutcome.panic :=
  ⟨by decide, by decide, by decide, by decide⟩

/-- C6 (amended): for every store with total ≥ 1 records, every offset with
0 ≤ offset < total and every NON-NEGATIVE limit such that the Go int sum
`offset + limit` does not overflow (`offset + limit ≤ 2^63 - 1`),
`List(decimal(offset), limit, defaultLimit)` returns the sub-sequence
`[offset, end)` of the store's iteration order with
`end = min(total, offset + limit)`, nextCursor `end` in decimal, and
isLastPage true iff `end = total` or `total < defaultLimit`.  (For a
negative limit, or an overflowing sum, the code panics instead — see the
counterexample.) -/
theorem listOp_pagination (db : DB) (offset : Nat) (limit defaultLimit : Int)
    (hoff : offset < db.length) (hlim : 0 ≤ limit)
    (hrep : (offset : Int) + limit ≤ intMax) :
    ListOp db (intToStr (offset : Int)) limit defaultLimit =
      ListOutcome.ok
        (((db.map (fun p => p.2)).drop offset).take
          (min db.length (offset + limit.toNat) - offset))
        (intToStr ((min db.length (offset + limit.toNat) : Nat) : Int))
        (decide (db.length = min db.length (offset + limit.toNat)) ||
          decide ((db.length : Int) < defaultLimit)) := by
  have hoffrep : (offset : Int) ≤ intMax := by omega
  have hp : (if intToStr (offset : Int) = "" then some 0
      else parseAtoi (intToStr (offset : Int))) = some (offset : Int) := by
    rw [if_neg (intToStr_ofNat_ne_empty offset), intToStr_ofNat,
      parseAtoi_natDigits offset hoffrep]
  have h0 : db.length ≠ 0 := by omega
  have h1 : (db.length : Int) > (offset : Int) := by
    exact_mod_cast hoff
  have hlo : intMin ≤ (offset : Int) + limit := by
    unfold intMin
    omega
  have hE : listEnd (db.length : Int) (offset : Int) limit =
      ((min db.length (offset + limit.toNat) : Nat) : Int) := by
    unfold listEnd
    rw [wrap64_eq_self hlo hrep]
    split <;> omega
  have hg : 0 ≤ (offset : Int) ∧
      (offset : Int) ≤ listEnd (db.length : Int) (offset : Int) limit ∧
      listEnd (db.length : Int) (offset : Int) limit ≤ (db.length : Int) := by
    rw [hE]
    omega
  have hitems : (listEnd (db.length : Int) (offset : Int) limit - (offset : Int)).toNat =
      min db.length (offset + limit.toNat) - offset := by
    rw [hE]
    omega
  have hlast : decide ((db.length : Int) = listEnd (db.length : Int) (offset : Int) limit) =
      decide (db.length = min db.length (offset + limit.toNat)) := by
    rw [hE]
    exact decide_eq_decide.mpr Nat.cast_inj
  have main : ListOp db (intToStr (offset : Int)) limit defaultLimit =
      ListOutcome.ok
        (((db.map (fun p => p.2)).drop ((offset : Int)).toNat).take
          (listEnd (db.length : Int) (offset : Int) limit - (offset : Int)).toNat)
        (intToStr (listEnd (db.length : Int) (offset : Int) limit))
        (decide ((db.length : Int) = listEnd (db.length : Int) (offset : Int) limit) ||
          decide ((db.length : Int) < defaultLimit)) := by
    simp only [ListOp, hp]
    rw [if_neg h0, if_pos h1, if_pos hg]
  rw [main]
  congr 1
  · rw [hitems]
    simp only [Int.toNat_natCast]
  · rw [hE]
  · rw [hlast]

/-- Witness for C6 at a concrete two-record store. -/
theorem listOp_pagination_witness :
    ListOp [(jsonKey "a", tokA), (jsonKey "b", tokB)] (intToStr ((1 : Nat) : Int)) 5 2 =
      ListOutcome.ok [tokB] (intToStr ((2 : Nat) : Int)) true := by
  have h := listOp_pagination [(jsonKey "a", tokA), (jsonKey "b", tokB)] 1 5 2
    (by decide) (by decide) (by decide)
  rw [h]
  decide

end accesstoken
